import Mathlib

/-!
Verification development for the `assemble/_pixabay/_video.py` script:
a linear batch job that searches the Pixabay video API for each configured
segment, downloads the chosen rendition, trims/resizes the clip,
concatenates all clips, optionally mixes audio, and exports one file.

The script is embedded shallowly: JSON responses become an inductive
value type with Python subscripting/truthiness semantics, the untyped
Python exceptions become an error type, the main loop becomes a fold
over segments that threads the asset directory state and records the
network requests it issues as an event trace.
-/

namespace AssemblePixabay

/-- JSON values as delivered by `resp.json()`. -/
inductive JVal where
  | jnull : JVal
  | jbool : Bool → JVal
  | jnum : Int → JVal
  | jstr : String → JVal
  | jarr : List JVal → JVal
  | jobj : List (String × JVal) → JVal

/-- Python truthiness (`if not hits`, `large or medium`). -/
def truthy : JVal → Bool
  | .jnull => false
  | .jbool b => b
  | .jnum n => n != 0
  | .jstr s => !s.isEmpty
  | .jarr xs => !xs.isEmpty
  | .jobj fs => !fs.isEmpty

/-- The Python exceptions the script can raise. `mediaError` stands for the
exceptions of the video-editing library. -/
inductive PyErr where
  | httpError : Nat → PyErr
  | runtimeError : String → PyErr
  | keyError : String → PyErr
  | typeError : PyErr
  | indexError : PyErr
  | mediaError : String → PyErr
deriving DecidableEq

/-- Python `dict.get(k)`: `none` when the key is missing or the value is not
an object. -/
def jget : JVal → String → Option JVal
  | .jobj fs, k => fs.lookup k
  | _, _ => none

/-- Python subscripting `obj[k]` with a string key: `KeyError` when the key
is missing from an object, `TypeError` on any non-object (in particular on
`None`). -/
def pyGetItem : JVal → String → Except PyErr JVal
  | .jobj fs, k =>
    match fs.lookup k with
    | some v => .ok v
    | none => .error (.keyError k)
  | _, _ => .error .typeError

/-- Python subscripting `xs[i]` with an integer index: `IndexError` past the
end of a list, `KeyError` on a dict without that key, `TypeError` otherwise. -/
def pyIndex : JVal → Nat → Except PyErr JVal
  | .jarr xs, i =>
    match xs.get? i with
    | some v => .ok v
    | none => .error .indexError
  | .jobj _, _ => .error (.keyError "0")
  | _, _ => .error .typeError

/-- An HTTP response: status code plus parsed JSON body. -/
structure HttpResp where
  status : Nat
  body : JVal

/-- The selection `hits[0]["videos"]["large"] or hits[0]["videos"]["medium"]`
followed by `best["url"]`; the `or` is short-circuiting, so the `medium`
subscript is evaluated only when the `large` value is falsy. -/
def selectUrl (hits : JVal) : Except PyErr JVal := do
  let first ← pyIndex hits 0
  let vids ← pyGetItem first "videos"
  let lg ← pyGetItem vids "large"
  let best ← if truthy lg then pure lg else pyGetItem vids "medium"
  pyGetItem best "url"

/-- `px_search_video(query)` applied to the response the API returned:
`raise_for_status` (an `HTTPError` on any status of 400 or above), then
`hits = data.get("hits")`, the `RuntimeError` when `hits` is falsy
(missing, null, or an empty list), then the rendition selection. -/
def px_search_video (query : String) (resp : HttpResp) : Except PyErr JVal :=
  if 400 ≤ resp.status then .error (.httpError resp.status)
  else
    let hits := (jget resp.body "hits").getD .jnull
    if truthy hits then selectUrl hits
    else .error (.runtimeError ("No Pixabay results for " ++ query))

/-- One entry of the `SEGMENTS` configuration table:
`(search query, trim duration in seconds, output filename)`. -/
structure Segment where
  query : String
  dur : ℚ
  fname : String

/-- The hard-coded configuration table of the script. -/
def SEGMENTS : List Segment :=
  [⟨"sunrise timelapse", 5, "sunrise.mp4"⟩,
   ⟨"diverse friends smiling", 5, "friends.mp4"⟩,
   ⟨"bible pages turning", 10, "bible.mp4"⟩,
   ⟨"family hug reunion", 10, "family.mp4"⟩,
   ⟨"people dancing field", 10, "dancing.mp4"⟩,
   ⟨"worship church crowd", 10, "worship.mp4"⟩,
   ⟨"cross silhouette sunset", 10, "cross.mp4"⟩]

/-- The observable properties of a source video file on disk: pixel
dimensions and duration in seconds. -/
structure SrcVideo where
  w : Nat
  h : Nat
  duration : ℚ
deriving DecidableEq

/-- The `assets/` directory: filenames mapped to the video stored there. -/
abbrev FS := List (String × SrcVideo)

/-- `(ASSETS / fname).exists()`. -/
def hasFile (fs : FS) (n : String) : Bool := (fs.lookup n).isSome

/-- A network request issued by the script: the search GET inside
`px_search_video`, or the streaming GET inside `download`. -/
inductive Event where
  | searchReq : String → Event
  | downloadReq : JVal → Event

/-- True exactly on download events. -/
def Event.isDownload : Event → Bool
  | .downloadReq _ => true
  | _ => false

/-- The fixed external world of one run: the response the search API gives
for each query, and the video content served at each URL. -/
structure Env where
  search : String → HttpResp
  content : JVal → SrcVideo

/-- `download(url, dst)`: if `dst` already exists, return immediately
(no request, file untouched); otherwise issue the streaming GET and write
the served bytes to `dst`. Returns the requests issued and the new state
of the asset directory. -/
def download (env : Env) (url : JVal) (dst : String) (fs : FS) :
    List Event × FS :=
  if hasFile fs dst then ([], fs)
  else ([.downloadReq url], (dst, env.content url) :: fs)

/-- Modelled from the spec: `VideoFileClip(str(fp)).subclip(0, dur)` of the
video-editing library is not in `src/`; per the spec it restricts the
timeline to `[0, dur)` and fails when the source is shorter than `dur`. -/
def subclipTrim (v : SrcVideo) (dur : ℚ) : Except PyErr SrcVideo :=
  if v.duration < dur then
    .error (.mediaError "subclip: source shorter than requested duration")
  else .ok ⟨v.w, v.h, dur⟩

/-- Modelled from the spec: `clip.resize(height=1920)` /
`clip.resize(width=1080)` of the video-editing library is not in `src/`;
per the spec it fixes the named dimension exactly and scales the other
proportionally. Returns `(width, height)` after
`clip.resize(height=1920) if clip.w < clip.h else clip.resize(width=1080)`. -/
def resizeDims (w h : Nat) : ℚ × ℚ :=
  if w < h then (((w : ℚ) * 1920) / (h : ℚ), 1920)
  else (1080, ((h : ℚ) * 1080) / (w : ℚ))

/-- A processed clip as appended to `clips`: source file, output dimensions,
trimmed duration, forced frame rate. -/
structure PClip where
  file : String
  w : ℚ
  h : ℚ
  duration : ℚ
  fps : Nat
deriving DecidableEq

/-- The per-segment clip processing of the main loop:
`VideoFileClip(str(fp)).subclip(0, dur)`, then the resize, then
`set_fps(30)`. -/
def processClip (fname : String) (v : SrcVideo) (dur : ℚ) :
    Except PyErr PClip :=
  match subclipTrim v dur with
  | .error e => .error e
  | .ok v2 =>
    let dims := resizeDims v2.w v2.h
    .ok ⟨fname, dims.1, dims.2, v2.duration, 30⟩

/-- One iteration of the main loop for one segment:
`url = px_search_video(query)` (the search GET is issued first and any
failure aborts before `download` is called), then `download(url, fp)`,
then the clip is loaded from the file on disk and processed. -/
def stepSegment (env : Env) (fs : FS) (seg : Segment) :
    List Event × FS × Except PyErr PClip :=
  match px_search_video seg.query (env.search seg.query) with
  | .error e => ([.searchReq seg.query], fs, .error e)
  | .ok url =>
    match download env url seg.fname fs with
    | (evs, fs2) =>
      match fs2.lookup seg.fname with
      | none =>
        (.searchReq seg.query :: evs, fs2, .error (.mediaError "file not found"))
      | some v =>
        (.searchReq seg.query :: evs, fs2, processClip seg.fname v seg.dur)

/-- The main loop `for query, dur, fname in SEGMENTS`, threading the asset
directory and collecting the processed clips in configuration order; any
uncaught exception aborts the whole run at that segment. -/
def runSegments (env : Env) : FS → List Segment →
    List Event × FS × Except PyErr (List PClip)
  | fs, [] => ([], fs, .ok [])
  | fs, seg :: rest =>
    match stepSegment env fs seg with
    | (t1, fs1, .error e) => (t1, fs1, .error e)
    | (t1, fs1, .ok c) =>
      match runSegments env fs1 rest with
      | (t2, fs2, r) => (t1 ++ t2, fs2, r.map (fun cs => c :: cs))

/-- The composed timeline. Modelled from the spec: the order-preserving
concatenation `concatenate_videoclips(clips, method="compose")` of the
video-editing library is not in `src/`; per the spec it concatenates the
clips preserving input order (padding/letterboxing differing sizes). -/
structure Video where
  parts : List PClip
deriving DecidableEq

/-- `concatenate_videoclips(clips, method="compose")`. -/
def concatenate_videoclips (clips : List PClip) : Video := ⟨clips⟩

/-- One audio source as placed into `audios`: file plus the `volumex` gain. -/
structure AudioTrack where
  file : String
  volume : ℚ
deriving DecidableEq

/-- The composite audio attached to the timeline. Modelled from the spec:
`CompositeAudioClip` of the video-editing library is not in `src/`; per the
spec it layers the listed tracks simultaneously, and `audio_fadeout`
applies a fade-to-silence of the given length at the end. -/
structure AudioMix where
  tracks : List AudioTrack
  fadeOut : ℚ
deriving DecidableEq

/-- The audio stage: `music.mp3` (if present) at gain 0.25, then `vo.wav`
(if present) at gain 1.0; when `audios` is nonempty they are composited
with a 1-second fade-out and attached, otherwise no audio track is set. -/
def audioStage (musicExists voExists : Bool) : Option AudioMix :=
  let audios :=
    (if musicExists then [AudioTrack.mk "music.mp3" (1/4)] else []) ++
    (if voExists then [AudioTrack.mk "vo.wav" 1] else [])
  if audios.isEmpty then none
  else some ⟨audios, 1⟩

/-- The exported artifact `final_video.mp4`: the composed timeline together
with its optional audio track. -/
structure Artifact where
  video : Video
  audio : Option AudioMix

/-- Sections 3–5 of the script after all clips are fetched: concatenation
plus the optional audio stage, as encoded by `write_videofile`. -/
def exportArtifact (clips : List PClip) (musicExists voExists : Bool) :
    Artifact :=
  ⟨concatenate_videoclips clips, audioStage musicExists voExists⟩

/-- Python `str.strip()`: remove leading and trailing whitespace. -/
def strip (s : String) : String :=
  ⟨((s.data.dropWhile Char.isWhitespace).reverse.dropWhile
      Char.isWhitespace).reverse⟩

/-- `API_KEY = os.getenv("PIXABAY_KEY") or input("Enter your Pixabay API key: ").strip()`:
the environment value when set and non-empty (Python truthiness of strings),
otherwise the interactively typed value, whitespace-stripped. -/
def resolveApiKey (envVar : Option String) (typed : String) : String :=
  match envVar with
  | some v => if v = "" then strip typed else v
  | none => strip typed

/-! Concrete sample data, used by the witnesses below. -/

/-- A well-formed `videos` object with both renditions available. -/
def sampleVideos : JVal :=
  .jobj [("large", .jobj [("url", .jstr "https://px/large.mp4")]),
         ("medium", .jobj [("url", .jstr "https://px/medium.mp4")])]

/-- A search response with one hit and both renditions. -/
def sampleResp : HttpResp :=
  ⟨200, .jobj [("hits", .jarr [.jobj [("videos", sampleVideos)]])]⟩

/-- A `videos` object whose `large` rendition is null. -/
def sampleVideosNullLarge : JVal :=
  .jobj [("large", .jnull),
         ("medium", .jobj [("url", .jstr "https://px/medium.mp4")])]

/-- A search response whose first hit has a null `large` rendition. -/
def sampleRespNullLarge : HttpResp :=
  ⟨200, .jobj [("hits", .jarr [.jobj [("videos", sampleVideosNullLarge)]])]⟩

/-- A `videos` object lacking the `large` key altogether. -/
def sampleVideosNoLarge : JVal :=
  .jobj [("medium", .jobj [("url", .jstr "https://px/medium.mp4")])]

/-- A search response whose first hit lacks the `large` key. -/
def sampleRespNoLarge : HttpResp :=
  ⟨200, .jobj [("hits", .jarr [.jobj [("videos", sampleVideosNoLarge)]])]⟩

/-- A search response with zero hits. -/
def sampleRespNoHits : HttpResp := ⟨200, .jobj [("hits", .jarr [])]⟩

/-- A portrait 1080×1920 source video of 10 seconds. -/
def sampleSrc : SrcVideo := ⟨1080, 1920, 10⟩

/-- A world where every query returns `sampleResp` and every URL serves
`sampleSrc`. -/
def sampleEnv : Env := ⟨fun _ => sampleResp, fun _ => sampleSrc⟩

/-- A one-segment configuration. -/
def sampleSegs : List Segment := [⟨"sunrise timelapse", 5, "sunrise.mp4"⟩]

/-- The asset directory after `sampleSegs` has been fetched once. -/
def sampleFS : FS := [("sunrise.mp4", sampleSrc)]

/-- The processed clip of the sample segment (width written unreduced, as
`resizeDims` produces it). -/
def sampleClip : PClip := ⟨"sunrise.mp4", ((1080 : ℚ) * 1920) / 1920, 1920, 5, 30⟩

/-- A 3-second source video, shorter than the 5-second sample segment. -/
def shortSrc : SrcVideo := ⟨1080, 1920, 3⟩

/-- A world like `sampleEnv` whose served videos are too short to trim. -/
def shortEnv : Env := ⟨fun _ => sampleResp, fun _ => shortSrc⟩

/-- A world where every search comes back with zero hits. -/
def noHitsEnv : Env := ⟨fun _ => sampleRespNoHits, fun _ => sampleSrc⟩

/-- A JSON value that is a (non-null) object containing a `url` key — the
shape a rendition must have for `best["url"]` to return normally. -/
def isUrlMap (x : JVal) : Prop :=
  ∃ fields, x = JVal.jobj fields ∧ (fields.lookup "url").isSome = true

/-! Helper lemmas. -/

/-- String subscripting never raises a `RuntimeError`. -/
theorem pyGetItem_ne_runtime (v : JVal) (k m : String) :
    pyGetItem v k ≠ .error (.runtimeError m) := by
  cases v <;> simp [pyGetItem]
  case jobj fs => cases fs.lookup k <;> simp

/-- Integer subscripting never raises a `RuntimeError`. -/
theorem pyIndex_ne_runtime (v : JVal) (i : Nat) (m : String) :
    pyIndex v i ≠ .error (.runtimeError m) := by
  cases v <;> simp [pyIndex]
  case jarr xs => cases hx : xs[i]? <;> simp [hx]

/-- A sequenced computation raises no `RuntimeError` when neither part does. -/
theorem bind_ne_runtime (x : Except PyErr JVal) (f : JVal → Except PyErr JVal)
    (hx : ∀ m, x ≠ .error (.runtimeError m))
    (hf : ∀ a m, f a ≠ .error (.runtimeError m)) (m : String) :
    (x >>= f) ≠ .error (.runtimeError m) := by
  cases hx' : x with
  | error e =>
    simp only [bind, Except.bind]
    intro hc
    injection hc with he
    exact hx m (by rw [he] at hx'; exact hx')
  | ok a => simpa [bind, Except.bind] using hf a m

/-- The rendition selection never raises a `RuntimeError`. -/
theorem selectUrl_ne_runtime (hits : JVal) (m : String) :
    selectUrl hits ≠ .error (.runtimeError m) := by
  unfold selectUrl
  refine bind_ne_runtime _ _ (pyIndex_ne_runtime hits 0) ?_ m
  intro first m1
  refine bind_ne_runtime _ _ (pyGetItem_ne_runtime first "videos") ?_ m1
  intro vids m2
  refine bind_ne_runtime _ _ (pyGetItem_ne_runtime vids "large") ?_ m2
  intro lg m3
  by_cases ht : truthy lg
  · simp only [ht, if_true, pure_bind]
    exact pyGetItem_ne_runtime lg "url" m3
  · simp only [ht, if_false]
    refine bind_ne_runtime _ _ (pyGetItem_ne_runtime vids "medium") ?_ m3
    intro best m4
    exact pyGetItem_ne_runtime best "url" m4

/-- `px_search_video` raises a `RuntimeError` exactly when the status is a
success and the `hits` field is missing or the empty list (for bodies whose
`hits` field, if present, is a list). -/
theorem px_no_results_iff (q : String) (st : Nat) (bfs : List (String × JVal))
    (hwf : bfs.lookup "hits" = none ∨ ∃ l, bfs.lookup "hits" = some (.jarr l)) :
    (∃ m, px_search_video q ⟨st, .jobj bfs⟩ = .error (.runtimeError m)) ↔
      st < 400 ∧
        (bfs.lookup "hits" = none ∨ bfs.lookup "hits" = some (.jarr [])) := by
  unfold px_search_video
  by_cases h4 : 400 ≤ st
  · simp [h4, Nat.not_lt.mpr h4]
  · rcases hwf with hnone | ⟨l, hl⟩
    · simp [h4, jget, hnone, truthy, Nat.lt_of_not_le h4]
    · cases l with
      | nil => simp [h4, jget, hl, truthy, Nat.lt_of_not_le h4]
      | cons x xs =>
        simp only [h4, if_false, jget, hl, Option.getD_some, truthy,
          List.isEmpty_cons, Bool.not_false, if_true]
        constructor
        · rintro ⟨m, hm⟩
          exact absurd hm (selectUrl_ne_runtime _ m)
        · rintro ⟨-, h | h⟩ <;> simp at h

/-- `download` never removes or changes an existing file. -/
theorem download_lookup_mono (env : Env) (url : JVal) (dst n : String)
    (fs : FS) (v : SrcVideo) (h : fs.lookup n = some v) :
    (download env url dst fs).2.lookup n = some v := by
  unfold download
  by_cases hd : hasFile fs dst
  · simp [hd, h]
  · simp only [hd, if_false]
    by_cases hn : n = dst
    · subst hn
      rw [hasFile, h] at hd
      simp at hd
    · have hb : (n == dst) = false := beq_eq_false_iff_ne.mpr hn
      simp [List.lookup, hb, h]

/-- One loop iteration never removes or changes an existing file. -/
theorem stepSegment_lookup_mono (env : Env) (fs : FS) (seg : Segment)
    (n : String) (v : SrcVideo) (h : fs.lookup n = some v) :
    (stepSegment env fs seg).2.1.lookup n = some v := by
  unfold stepSegment
  cases hpx : px_search_video seg.query (env.search seg.query) with
  | error e => simpa using h
  | ok url =>
    have hdl := download_lookup_mono env url seg.fname n fs v h
    cases hl : (download env url seg.fname fs).2.lookup seg.fname <;>
      simpa [hl] using hdl

/-- The whole loop never removes or changes an existing file. -/
theorem runSegments_lookup_mono (env : Env) (segs : List Segment) (fs : FS)
    (n : String) (v : SrcVideo) (h : fs.lookup n = some v) :
    (runSegments env fs segs).2.1.lookup n = some v := by
  induction segs generalizing fs with
  | nil => simpa [runSegments] using h
  | cons seg rest ih =>
    have hstep := stepSegment_lookup_mono env fs seg n v h
    rw [runSegments]
    rcases hs : stepSegment env fs seg with ⟨t1, fs1, r⟩
    rw [hs] at hstep
    cases r with
    | error e => simpa using hstep
    | ok c =>
      have hrest := ih fs1 hstep
      simpa using hrest

/-- A successfully processed clip carries its source filename, the requested
trim duration, and the forced frame rate 30. -/
theorem processClip_ok_shape (n : String) (v : SrcVideo) (d : ℚ) (c : PClip)
    (h : processClip n v d = .ok c) :
    c.file = n ∧ c.duration = d ∧ c.fps = 30 := by
  unfold processClip subclipTrim at h
  by_cases hlt : v.duration < d
  · rw [if_pos hlt] at h
    exact Except.noConfusion h
  · rw [if_neg hlt] at h
    injection h with h
    subst h
    exact ⟨rfl, rfl, rfl⟩

/-- What a successful loop iteration implies: the search succeeded, the file
is on disk afterwards, and the clip is the processing of that file. -/
theorem stepSegment_ok_inv (env : Env) (fs : FS) (seg : Segment)
    (t : List Event) (fs1 : FS) (c : PClip)
    (h : stepSegment env fs seg = (t, fs1, .ok c)) :
    ∃ url v,
      px_search_video seg.query (env.search seg.query) = .ok url ∧
      fs1.lookup seg.fname = some v ∧
      processClip seg.fname v seg.dur = .ok c ∧
      t = .searchReq seg.query :: (download env url seg.fname fs).1 ∧
      fs1 = (download env url seg.fname fs).2 := by
  unfold stepSegment at h
  cases hpx : px_search_video seg.query (env.search seg.query) with
  | error e =>
    rw [hpx] at h
    simp at h
  | ok url =>
    rw [hpx] at h
    dsimp only at h
    refine ⟨url, ?_⟩
    cases hl : (download env url seg.fname fs).2.lookup seg.fname with
    | none =>
      rw [hl] at h
      simp at h
    | some v =>
      rw [hl] at h
      dsimp only at h
      rw [Prod.ext_iff] at h
      obtain ⟨ht, h2⟩ := h
      rw [Prod.ext_iff] at h2
      obtain ⟨hfs1, hc⟩ := h2
      dsimp only at ht hfs1 hc
      exact ⟨v, rfl, hfs1 ▸ hl, hc, ht.symm, hfs1.symm⟩

/-- A loop iteration whose search succeeds, whose asset file is already on
disk, and whose processing succeeds issues only the search request and
leaves the asset directory unchanged. -/
theorem stepSegment_cached (env : Env) (g : FS) (seg : Segment) (url : JVal)
    (v : SrcVideo) (c : PClip)
    (hpx : px_search_video seg.query (env.search seg.query) = .ok url)
    (hg : g.lookup seg.fname = some v)
    (hc : processClip seg.fname v seg.dur = .ok c) :
    stepSegment env g seg = ([.searchReq seg.query], g, .ok c) := by
  unfold stepSegment
  rw [hpx]
  have hd : download env url seg.fname g = ([], g) := by
    unfold download
    rw [hasFile, hg]
    simp
  dsimp only
  rw [hd]
  dsimp only
  rw [hg]
  dsimp only
  rw [hc]

/-- Rerunning the loop from any asset directory that contains everything the
first successful run left behind succeeds with the same clips, issues only
the search requests, and downloads nothing. -/
theorem runSegments_cached_rerun (env : Env) (segs : List Segment) :
    ∀ (fs : FS) (t : List Event) (fs1 : FS) (clips : List PClip),
      runSegments env fs segs = (t, fs1, .ok clips) →
      ∀ g : FS, (∀ n v, fs1.lookup n = some v → g.lookup n = some v) →
      runSegments env g segs =
        (segs.map (fun s => Event.searchReq s.query), g, .ok clips) := by
  induction segs with
  | nil =>
    intro fs t fs1 clips h g hg
    rw [runSegments] at h
    rw [Prod.ext_iff] at h
    obtain ⟨hT, h2⟩ := h
    rw [Prod.ext_iff] at h2
    obtain ⟨hFS, hC⟩ := h2
    dsimp only at hT hFS hC
    injection hC with hC
    rw [runSegments, ← hC]
    simp
  | cons seg rest ih =>
    intro fs t fs1 clips h g hg
    rw [runSegments] at h
    rcases hs : stepSegment env fs seg with ⟨t1, fsA, r⟩
    rw [hs] at h
    cases r with
    | error e =>
      dsimp only at h
      simp at h
    | ok c =>
      dsimp only at h
      rcases hr : runSegments env fsA rest with ⟨t2, fsB, r2⟩
      rw [hr] at h
      dsimp only at h
      cases r2 with
      | error e => simp [Except.map] at h
      | ok cs =>
        rw [Prod.ext_iff] at h
        obtain ⟨hT, h2⟩ := h
        rw [Prod.ext_iff] at h2
        obtain ⟨hFS, hC⟩ := h2
        dsimp only at hT hFS hC
        injection hC with hC
        obtain ⟨url, v, hpx, hA, hpc, hT1, hFSA⟩ :=
          stepSegment_ok_inv env fs seg t1 fsA c hs
        have hB : fsB.lookup seg.fname = some v := by
          have hm := runSegments_lookup_mono env rest fsA seg.fname v hA
          rw [hr] at hm
          exact hm
        have hGfile : g.lookup seg.fname = some v := hg seg.fname v (hFS ▸ hB)
        have hstep2 := stepSegment_cached env g seg url v c hpx hGfile hpc
        have hg2 : ∀ n w, fsB.lookup n = some w → g.lookup n = some w := by
          intro n w hn
          exact hg n w (hFS ▸ hn)
        have hrest2 := ih fsA t2 fsB cs hr g hg2
        rw [runSegments, hstep2]
        dsimp only
        rw [hrest2]
        dsimp only
        rw [← hC]
        simp [Except.map]

/-- Every loop iteration begins by issuing the search request. -/
theorem stepSegment_trace_shape (env : Env) (fs : FS) (seg : Segment) :
    ∃ t2, (stepSegment env fs seg).1 = .searchReq seg.query :: t2 := by
  unfold stepSegment
  cases hpx : px_search_video seg.query (env.search seg.query) with
  | error e => exact ⟨[], rfl⟩
  | ok url =>
    dsimp only
    cases hl : (download env url seg.fname fs).2.lookup seg.fname <;>
      exact ⟨(download env url seg.fname fs).1, rfl⟩

/-- When the asset file is already on disk, the iteration issues exactly the
search request and nothing else, whatever its outcome. -/
theorem stepSegment_cached_trace (env : Env) (fs : FS) (seg : Segment)
    (h : hasFile fs seg.fname = true) :
    (stepSegment env fs seg).1 = [.searchReq seg.query] := by
  unfold stepSegment
  cases hpx : px_search_video seg.query (env.search seg.query) with
  | error e => rfl
  | ok url =>
    have hd : download env url seg.fname fs = ([], fs) := by
      unfold download
      rw [h]
      simp
    dsimp only
    rw [hd]
    dsimp only
    cases hl : List.lookup seg.fname fs <;> rfl

/-- A failing iteration aborts the whole run with its error and trace. -/
theorem runSegments_abort (env : Env) (fs : FS) (seg : Segment)
    (rest : List Segment) (t1 : List Event) (fs1 : FS) (e : PyErr)
    (h : stepSegment env fs seg = (t1, fs1, .error e)) :
    runSegments env fs (seg :: rest) = (t1, fs1, .error e) := by
  rw [runSegments, h]

/-- A failing search makes the iteration fail before `download` is invoked:
the iteration's only event is the search request and the directory is
untouched. -/
theorem stepSegment_px_error (env : Env) (fs : FS) (seg : Segment) (e : PyErr)
    (h : px_search_video seg.query (env.search seg.query) = .error e) :
    stepSegment env fs seg = ([.searchReq seg.query], fs, .error e) := by
  unfold stepSegment
  rw [h]

/-- The trace of a nonempty run starts with the first segment's search
request. -/
theorem runSegments_trace_head (env : Env) (fs : FS) (seg : Segment)
    (rest : List Segment) :
    ((runSegments env fs (seg :: rest)).1).head? =
      some (.searchReq seg.query) := by
  obtain ⟨t2, ht⟩ := stepSegment_trace_shape env fs seg
  rw [runSegments]
  rcases hs : stepSegment env fs seg with ⟨t1, fs1, r⟩
  rw [hs] at ht
  dsimp only at ht
  cases r with
  | error e =>
    dsimp only
    rw [ht]
    rfl
  | ok c =>
    dsimp only
    rw [ht]
    rfl

/-- On a successful run, every configured segment's search request appears
in the trace. -/
theorem runSegments_search_mem (env : Env) (segs : List Segment) :
    ∀ (fs : FS) (t : List Event) (fs1 : FS) (clips : List PClip),
      runSegments env fs segs = (t, fs1, .ok clips) →
      ∀ seg ∈ segs, Event.searchReq seg.query ∈ t := by
  induction segs with
  | nil =>
    intro fs t fs1 clips h s hm
    simp at hm
  | cons seg rest ih =>
    intro fs t fs1 clips h s hm
    rw [runSegments] at h
    rcases hs : stepSegment env fs seg with ⟨t1, fsA, r⟩
    rw [hs] at h
    cases r with
    | error e =>
      dsimp only at h
      simp at h
    | ok c =>
      dsimp only at h
      rcases hr : runSegments env fsA rest with ⟨t2, fsB, r2⟩
      rw [hr] at h
      dsimp only at h
      cases r2 with
      | error e => simp [Except.map] at h
      | ok cs =>
        rw [Prod.ext_iff] at h
        obtain ⟨hT, h2⟩ := h
        dsimp only at hT
        obtain ⟨t3, ht1⟩ := stepSegment_trace_shape env fs seg
        rw [hs] at ht1
        dsimp only at ht1
        rcases List.mem_cons.mp hm with rfl | hm2
        · rw [← hT, ht1]
          exact List.mem_append_left _ (List.mem_cons_self _ _)
        · have := ih fsA t2 fsB cs hr s hm2
          rw [← hT]
          exact List.mem_append_right _ this

/-- On a successful run the collected clips match the configuration
pointwise: as many clips as segments, and the clip at each position is the
processing of that position's segment. -/
theorem runSegments_ok_zip (env : Env) (segs : List Segment) :
    ∀ (fs : FS) (t : List Event) (fs1 : FS) (clips : List PClip),
      runSegments env fs segs = (t, fs1, .ok clips) →
      clips.length = segs.length ∧
      ∀ p ∈ clips.zip segs,
        p.1.file = p.2.fname ∧ p.1.duration = p.2.dur ∧ p.1.fps = 30 := by
  induction segs with
  | nil =>
    intro fs t fs1 clips h
    rw [runSegments] at h
    rw [Prod.ext_iff] at h
    obtain ⟨-, h2⟩ := h
    rw [Prod.ext_iff] at h2
    obtain ⟨-, hC⟩ := h2
    dsimp only at hC
    injection hC with hC
    rw [← hC]
    simp
  | cons seg rest ih =>
    intro fs t fs1 clips h
    rw [runSegments] at h
    rcases hs : stepSegment env fs seg with ⟨t1, fsA, r⟩
    rw [hs] at h
    cases r with
    | error e =>
      dsimp only at h
      simp at h
    | ok c =>
      dsimp only at h
      rcases hr : runSegments env fsA rest with ⟨t2, fsB, r2⟩
      rw [hr] at h
      dsimp only at h
      cases r2 with
      | error e => simp [Except.map] at h
      | ok cs =>
        rw [Prod.ext_iff] at h
        obtain ⟨-, h2⟩ := h
        rw [Prod.ext_iff] at h2
        obtain ⟨-, hC⟩ := h2
        dsimp only at hC
        simp only [Except.map] at hC
        injection hC with hC
        rw [← hC]
        obtain ⟨url, v, hpx, hA, hpc, -, -⟩ :=
          stepSegment_ok_inv env fs seg t1 fsA c hs
        obtain ⟨hfile, hdur, hfps⟩ :=
          processClip_ok_shape seg.fname v seg.dur c hpc
        obtain ⟨hlen, hzip⟩ := ih fsA t2 fsB cs hr
        refine ⟨by simp [hlen], ?_⟩
        intro p hp
        rcases List.mem_cons.mp (by simpa using hp) with rfl | hp2
        · exact ⟨hfile, hdur, hfps⟩
        · exact hzip p hp2

/-! The claims. -/

/-- Claim C1: for every configuration of segments, the final composed video
contains exactly the processed clips of those segments, concatenated in the
same order as they appear in the `SEGMENTS` configuration list: on a
successful run, the composed video has one part per segment, and the part
at each position is the processed clip of the segment at that position
(same source file, that segment's trim duration, frame rate 30). -/
theorem claim1_final_order (env : Env) (fs : FS) (segs : List Segment)
    (t : List Event) (fs1 : FS) (clips : List PClip)
    (h : runSegments env fs segs = (t, fs1, .ok clips)) :
    (concatenate_videoclips clips).parts.length = segs.length ∧
    ∀ p ∈ (concatenate_videoclips clips).parts.zip segs,
      p.1.file = p.2.fname ∧ p.1.duration = p.2.dur ∧ p.1.fps = 30 :=
  runSegments_ok_zip env segs fs t fs1 clips h

/-- Witness for C1 at a concrete one-segment run. -/
theorem claim1_witness :
    (concatenate_videoclips [sampleClip]).parts.length = sampleSegs.length ∧
    ∀ p ∈ (concatenate_videoclips [sampleClip]).parts.zip sampleSegs,
      p.1.file = p.2.fname ∧ p.1.duration = p.2.dur ∧ p.1.fps = 30 :=
  claim1_final_order sampleEnv [] sampleSegs
    [Event.searchReq "sunrise timelapse",
     Event.downloadReq (.jstr "https://px/large.mp4")]
    sampleFS [sampleClip] rfl

/-- Claim C2: for every loaded clip, the resize step scales it so that its
output height is exactly 1920 when the source width is strictly less than
the source height, and otherwise (width ≥ height) scales it so that its
output width is exactly 1080. -/
theorem claim2_resize_policy (w h : Nat) :
    (w < h → (resizeDims w h).2 = 1920) ∧
    (h ≤ w → (resizeDims w h).1 = 1080) := by
  constructor
  · intro hlt
    rw [resizeDims, if_pos hlt]
  · intro hle
    rw [resizeDims, if_neg (Nat.not_lt.mpr hle)]

/-- Witness for C2 at portrait 1080×1920 and landscape 1920×1080 inputs. -/
theorem claim2_witness :
    (resizeDims 1080 1920).2 = 1920 ∧ (resizeDims 1920 1080).1 = 1080 :=
  ⟨(claim2_resize_policy 1080 1920).1 (by decide),
   (claim2_resize_policy 1920 1080).2 (by decide)⟩

/-- Claim C7: for every source clip whose duration is strictly shorter than
the configured segment duration, the clip-processing step fails, and a
failing iteration aborts the run. -/
theorem claim7_short_clip_fails :
    (∀ (n : String) (v : SrcVideo) (d : ℚ), v.duration < d →
      processClip n v d =
        .error (.mediaError "subclip: source shorter than requested duration")) ∧
    (∀ (env : Env) (fs : FS) (seg : Segment) (rest : List Segment)
        (t1 : List Event) (fs1 : FS) (e : PyErr),
      stepSegment env fs seg = (t1, fs1, .error e) →
      runSegments env fs (seg :: rest) = (t1, fs1, .error e)) := by
  constructor
  · intro n v d hlt
    unfold processClip subclipTrim
    rw [if_pos hlt]
  · intro env fs seg rest t1 fs1 e h
    exact runSegments_abort env fs seg rest t1 fs1 e h

/-- Witness for C7: a 3-second source against a 5-second segment fails and
the one-segment run aborts with that error. -/
theorem claim7_witness :
    processClip "sunrise.mp4" shortSrc 5 =
      .error (.mediaError "subclip: source shorter than requested duration") ∧
    runSegments shortEnv [] sampleSegs =
      ([Event.searchReq "sunrise timelapse",
        Event.downloadReq (.jstr "https://px/large.mp4")],
       [("sunrise.mp4", shortSrc)],
       .error (.mediaError "subclip: source shorter than requested duration")) :=
  ⟨(claim7_short_clip_fails).1 "sunrise.mp4" shortSrc 5 (by norm_num [shortSrc]),
   (claim7_short_clip_fails).2 shortEnv [] ⟨"sunrise timelapse", 5, "sunrise.mp4"⟩ []
     [Event.searchReq "sunrise timelapse",
      Event.downloadReq (.jstr "https://px/large.mp4")]
     [("sunrise.mp4", shortSrc)]
     (.mediaError "subclip: source shorter than requested duration") rfl⟩

/-- Sequencing after a success just applies the continuation. -/
theorem ok_bind (x : JVal) (f : JVal → Except PyErr JVal) :
    (Except.ok x >>= f : Except PyErr JVal) = f x := rfl

/-- Sequencing after an error propagates the error. -/
theorem error_bind (e : PyErr) (f : JVal → Except PyErr JVal) :
    (Except.error e >>= f : Except PyErr JVal) = .error e := rfl

/-- A successful subscript means the value is an object with that key. -/
theorem pyGetItem_ok_inv (v : JVal) (k : String) (u : JVal)
    (h : pyGetItem v k = .ok u) :
    ∃ fields, v = JVal.jobj fields ∧ fields.lookup k = some u := by
  cases v with
  | jobj fields =>
    cases hl : fields.lookup k with
    | none =>
      simp only [pyGetItem, hl] at h
      exact Except.noConfusion h
    | some w =>
      simp only [pyGetItem, hl] at h
      injection h with h
      exact ⟨fields, rfl, by rw [hl, h]⟩
  | jnull => simp [pyGetItem] at h
  | jbool b => simp [pyGetItem] at h
  | jnum n => simp [pyGetItem] at h
  | jstr s => simp [pyGetItem] at h
  | jarr xs => simp [pyGetItem] at h

/-- For a success-status response whose first hit is `h0`, `px_search_video`
reduces to the rendition selection on the hits list. -/
theorem px_reduces_to_selectUrl (q : String) (st : Nat)
    (bfs : List (String × JVal)) (h0 : JVal) (hs : List JVal)
    (hst : st < 400)
    (hhits : bfs.lookup "hits" = some (.jarr (h0 :: hs))) :
    px_search_video q ⟨st, .jobj bfs⟩ = selectUrl (.jarr (h0 :: hs)) := by
  have h400 : ¬ 400 ≤ st := Nat.not_le.mpr hst
  simp [px_search_video, h400, jget, hhits, truthy]

/-- Claim C3: for every search response with at least one hit,
`px_search_video` selects the first (top-ranked) hit and returns the URL of
its `large` rendition; when the `large` rendition is null, it returns the
URL of that same hit's `medium` rendition instead. -/
theorem claim3_first_hit_large_else_medium (q : String) (st : Nat)
    (bfs : List (String × JVal)) (h0 : JVal) (hs : List JVal)
    (vfs : List (String × JVal)) (lg md : JVal)
    (hst : st < 400)
    (hhits : bfs.lookup "hits" = some (.jarr (h0 :: hs)))
    (hvids : pyGetItem h0 "videos" = .ok (.jobj vfs))
    (hlg : vfs.lookup "large" = some lg)
    (hmd : vfs.lookup "medium" = some md) :
    (truthy lg = true →
      px_search_video q ⟨st, .jobj bfs⟩ = pyGetItem lg "url") ∧
    (lg = .jnull →
      px_search_video q ⟨st, .jobj bfs⟩ = pyGetItem md "url") := by
  have hgen := px_reduces_to_selectUrl q st bfs h0 hs hst hhits
  have hidx : pyIndex (JVal.jarr (h0 :: hs)) 0 = .ok h0 := rfl
  have hlarge : pyGetItem (JVal.jobj vfs) "large" = .ok lg := by
    simp [pyGetItem, hlg]
  have hmed : pyGetItem (JVal.jobj vfs) "medium" = .ok md := by
    simp [pyGetItem, hmd]
  constructor
  · intro ht
    rw [hgen]
    simp only [selectUrl, hidx, ok_bind, hvids, hlarge, ht, if_true, pure_bind]
  · intro hnull
    subst hnull
    rw [hgen]
    simp only [selectUrl, hidx, ok_bind, hvids, hlarge, truthy, Bool.false_eq_true,
      if_false, hmed]

/-- Witness for C3 at the concrete mocked response whose `large` rendition
is null: the selected URL is the `medium` rendition's URL. -/
theorem claim3_witness :
    px_search_video "q" sampleRespNullLarge = .ok (.jstr "https://px/medium.mp4") :=
  (claim3_first_hit_large_else_medium "q" 200
      [("hits", .jarr [.jobj [("videos", sampleVideosNullLarge)]])]
      (.jobj [("videos", sampleVideosNullLarge)]) []
      [("large", .jnull), ("medium", .jobj [("url", .jstr "https://px/medium.mp4")])]
      .jnull (.jobj [("url", .jstr "https://px/medium.mp4")])
      (by omega) rfl rfl rfl rfl).2 rfl

/-- Claim C4: `px_search_video` raises the "no results" error if and only if
the (successfully delivered) search response contains zero hits or no hits
field, and in that case the run aborts at that segment before any download
request is made: the whole run's trace is just that segment's search
request and the asset directory is untouched. -/
theorem claim4_no_results (q : String) (st : Nat)
    (bfs : List (String × JVal))
    (hwf : bfs.lookup "hits" = none ∨ ∃ l, bfs.lookup "hits" = some (.jarr l)) :
    ((∃ m, px_search_video q ⟨st, .jobj bfs⟩ = .error (.runtimeError m)) ↔
      st < 400 ∧
        (bfs.lookup "hits" = none ∨ bfs.lookup "hits" = some (.jarr []))) ∧
    (∀ (env : Env) (fs : FS) (seg : Segment) (rest : List Segment) (e : PyErr),
      px_search_video seg.query (env.search seg.query) = .error e →
      runSegments env fs (seg :: rest) = ([.searchReq seg.query], fs, .error e)) := by
  constructor
  · exact px_no_results_iff q st bfs hwf
  · intro env fs seg rest e h
    exact runSegments_abort env fs seg rest _ _ e (stepSegment_px_error env fs seg e h)

/-- Witness for C4 at a concrete zero-hit response and the corresponding
aborted one-segment run. -/
theorem claim4_witness :
    (∃ m, px_search_video "sunrise timelapse" sampleRespNoHits =
      .error (.runtimeError m)) ∧
    runSegments noHitsEnv [] sampleSegs =
      ([.searchReq "sunrise timelapse"], [],
       .error (.runtimeError "No Pixabay results for sunrise timelapse")) :=
  ⟨((claim4_no_results "sunrise timelapse" 200 [("hits", .jarr [])]
      (Or.inr ⟨[], rfl⟩)).1).mpr ⟨by omega, Or.inr rfl⟩,
   (claim4_no_results "sunrise timelapse" 200 [("hits", .jarr [])]
      (Or.inr ⟨[], rfl⟩)).2 noHitsEnv []
      ⟨"sunrise timelapse", 5, "sunrise.mp4"⟩ []
      (.runtimeError "No Pixabay results for sunrise timelapse") rfl⟩

/-- Claim C10: `px_search_video` is partial on well-formed responses with
hits: if the first hit's `videos` object lacks a `large` key it raises a
`KeyError`, if both the `large` and `medium` renditions are null it raises
a `TypeError` (subscripting `None`), and it only returns normally when
`large` exists and at least one of large/medium is a non-null mapping
containing `url`. -/
theorem claim10_partiality (q : String) (st : Nat) (bfs : List (String × JVal))
    (h0 : JVal) (hs : List JVal) (vfs : List (String × JVal))
    (hst : st < 400)
    (hhits : bfs.lookup "hits" = some (.jarr (h0 :: hs)))
    (hvids : pyGetItem h0 "videos" = .ok (.jobj vfs)) :
    (vfs.lookup "large" = none →
      px_search_video q ⟨st, .jobj bfs⟩ = .error (.keyError "large")) ∧
    (vfs.lookup "large" = some .jnull → vfs.lookup "medium" = some .jnull →
      px_search_video q ⟨st, .jobj bfs⟩ = .error .typeError) ∧
    (∀ u, px_search_video q ⟨st, .jobj bfs⟩ = .ok u →
      ∃ lg, vfs.lookup "large" = some lg ∧
        (isUrlMap lg ∨ ∃ md, vfs.lookup "medium" = some md ∧ isUrlMap md)) := by
  have hgen := px_reduces_to_selectUrl q st bfs h0 hs hst hhits
  have hidx : pyIndex (JVal.jarr (h0 :: hs)) 0 = .ok h0 := rfl
  refine ⟨?_, ?_, ?_⟩
  · intro hnone
    rw [hgen]
    have hlarge : pyGetItem (JVal.jobj vfs) "large" = .error (.keyError "large") := by
      simp [pyGetItem, hnone]
    simp only [selectUrl, hidx, ok_bind, hvids, hlarge, error_bind]
  · intro hlnull hmnull
    rw [hgen]
    have hlarge : pyGetItem (JVal.jobj vfs) "large" = .ok .jnull := by
      simp [pyGetItem, hlnull]
    have hmed : pyGetItem (JVal.jobj vfs) "medium" = .ok .jnull := by
      simp [pyGetItem, hmnull]
    simp only [selectUrl, hidx, ok_bind, hvids, hlarge, truthy,
      Bool.false_eq_true, if_false, hmed]
    rfl
  · intro u hok
    rw [hgen] at hok
    cases hl : vfs.lookup "large" with
    | none =>
      have hlarge : pyGetItem (JVal.jobj vfs) "large" = .error (.keyError "large") := by
        simp [pyGetItem, hl]
      simp only [selectUrl, hidx, ok_bind, hvids, hlarge, error_bind] at hok
      exact absurd hok (by simp)
    | some lg =>
      have hlarge : pyGetItem (JVal.jobj vfs) "large" = .ok lg := by
        simp [pyGetItem, hl]
      simp only [selectUrl, hidx, ok_bind, hvids, hlarge] at hok
      refine ⟨lg, rfl, ?_⟩
      by_cases ht : truthy lg = true
      · simp only [ht, if_true, pure_bind] at hok
        obtain ⟨lfs, rfl, hu⟩ := pyGetItem_ok_inv lg "url" u hok
        exact Or.inl ⟨lfs, rfl, by rw [hu]; rfl⟩
      · have hf : truthy lg = false := Bool.not_eq_true _ ▸ eq_false_of_ne_true ht
        simp only [hf, Bool.false_eq_true, if_false] at hok
        cases hm : vfs.lookup "medium" with
        | none =>
          have hmed : pyGetItem (JVal.jobj vfs) "medium" =
              .error (.keyError "medium") := by
            simp [pyGetItem, hm]
          simp only [hmed, error_bind] at hok
          exact absurd hok (by simp)
        | some md =>
          have hmed : pyGetItem (JVal.jobj vfs) "medium" = .ok md := by
            simp [pyGetItem, hm]
          simp only [hmed, ok_bind] at hok
          obtain ⟨mfs, rfl, hu⟩ := pyGetItem_ok_inv md "url" u hok
          exact Or.inr ⟨.jobj mfs, rfl, mfs, rfl, by rw [hu]; rfl⟩

/-- Witness for C10 at a concrete response whose first hit's `videos` object
lacks the `large` key: a `KeyError` escapes. -/
theorem claim10_witness :
    px_search_video "q" sampleRespNoLarge = .error (.keyError "large") :=
  (claim10_partiality "q" 200
      [("hits", .jarr [.jobj [("videos", sampleVideosNoLarge)]])]
      (.jobj [("videos", sampleVideosNoLarge)]) []
      [("medium", .jobj [("url", .jstr "https://px/medium.mp4")])]
      (by omega) rfl rfl).1 rfl

/-- Claim C5: for every destination path that already exists on disk,
`download(url, dst)` returns immediately without issuing any network request
or modifying the file, and a second full run over the unchanged asset
directory left by a successful run issues zero download requests. -/
theorem claim5_download_idempotent :
    (∀ (env : Env) (url : JVal) (dst : String) (fs : FS),
      hasFile fs dst = true → download env url dst fs = ([], fs)) ∧
    (∀ (env : Env) (fs : FS) (segs : List Segment) (t : List Event)
        (fs1 : FS) (clips : List PClip),
      runSegments env fs segs = (t, fs1, .ok clips) →
      ((runSegments env fs1 segs).1.all fun e => !e.isDownload) = true) := by
  constructor
  · intro env url dst fs h
    unfold download
    rw [h]
    simp
  · intro env fs segs t fs1 clips h
    have hre :=
      runSegments_cached_rerun env segs fs t fs1 clips h fs1 (fun n v hv => hv)
    rw [hre]
    dsimp only
    rw [List.all_eq_true]
    intro e he
    obtain ⟨s, -, rfl⟩ := List.mem_map.mp he
    rfl

/-- Witness for C5: a cached download on the sample directory is a no-op,
and the rerun of the one-segment sample run downloads nothing. -/
theorem claim5_witness :
    download sampleEnv (.jstr "u") "sunrise.mp4" sampleFS = ([], sampleFS) ∧
    ((runSegments sampleEnv sampleFS sampleSegs).1.all
      fun e => !e.isDownload) = true :=
  ⟨claim5_download_idempotent.1 sampleEnv (.jstr "u") "sunrise.mp4" sampleFS rfl,
   claim5_download_idempotent.2 sampleEnv [] sampleSegs
     [Event.searchReq "sunrise timelapse",
      Event.downloadReq (.jstr "https://px/large.mp4")]
     sampleFS [sampleClip] rfl⟩

/-- Claim C6: the audio stage runs exactly when at least one of `music.mp3`
and `vo.wav` exists: music (if present) is attenuated to 0.25 of source
amplitude, voice-over (if present) is kept at amplitude 1.0, all present
tracks are layered into one composite with a 1-second fade-out; when
neither file exists, the exported video has no audio track. -/
theorem claim6_audio_policy (cs : List PClip) :
    (exportArtifact cs false false).audio = none ∧
    (exportArtifact cs true false).audio =
      some ⟨[⟨"music.mp3", 1/4⟩], 1⟩ ∧
    (exportArtifact cs false true).audio =
      some ⟨[⟨"vo.wav", 1⟩], 1⟩ ∧
    (exportArtifact cs true true).audio =
      some ⟨[⟨"music.mp3", 1/4⟩, ⟨"vo.wav", 1⟩], 1⟩ :=
  ⟨rfl, rfl, rfl, rfl⟩

/-- Claim C9: for every segment, a search API network request is issued on
every run, even when the segment's asset file already exists: an iteration
over a cached file issues exactly the search request (the cache check lives
only inside `download`, which runs after the search has completed), every
nonempty run's trace begins with the first segment's search request, and a
successful run's trace contains a search request for every segment. -/
theorem claim9_search_always (env : Env) :
    (∀ (fs : FS) (seg : Segment), hasFile fs seg.fname = true →
      (stepSegment env fs seg).1 = [.searchReq seg.query]) ∧
    (∀ (fs : FS) (seg : Segment) (rest : List Segment),
      ((runSegments env fs (seg :: rest)).1).head? =
        some (.searchReq seg.query)) ∧
    (∀ (segs : List Segment) (fs : FS) (t : List Event) (fs1 : FS)
        (clips : List PClip),
      runSegments env fs segs = (t, fs1, .ok clips) →
      ∀ seg ∈ segs, Event.searchReq seg.query ∈ t) :=
  ⟨fun fs seg h => stepSegment_cached_trace env fs seg h,
   fun fs seg rest => runSegments_trace_head env fs seg rest,
   fun segs fs t fs1 clips h => runSegments_search_mem env segs fs t fs1 clips h⟩

/-- Witness for C9 on the sample run whose asset file is already cached. -/
theorem claim9_witness :
    (stepSegment sampleEnv sampleFS
        ⟨"sunrise timelapse", 5, "sunrise.mp4"⟩).1 =
      [.searchReq "sunrise timelapse"] ∧
    Event.searchReq "sunrise timelapse" ∈
      [Event.searchReq "sunrise timelapse",
       Event.downloadReq (JVal.jstr "https://px/large.mp4")] :=
  ⟨(claim9_search_always sampleEnv).1 sampleFS
      ⟨"sunrise timelapse", 5, "sunrise.mp4"⟩ rfl,
   (claim9_search_always sampleEnv).2.2 sampleSegs []
      [Event.searchReq "sunrise timelapse",
       Event.downloadReq (JVal.jstr "https://px/large.mp4")]
      sampleFS [sampleClip] rfl
      ⟨"sunrise timelapse", 5, "sunrise.mp4"⟩ (by simp [sampleSegs])⟩

/-- Claim C8 as stated is false on the code: when the environment variable
is absent and the typed value is all whitespace, the resolver returns the
empty string, not a non-empty key. -/
theorem claim8_counterexample : resolveApiKey none "   " = "" := rfl

/-- Claim C8, amended: the credential resolver yields the environment
variable's value when it is set and non-empty, otherwise the interactively
typed value with surrounding whitespace trimmed; the result is non-empty
whenever the trimmed typed value is non-empty, but nothing enforces
non-emptiness when both the environment variable and the trimmed input are
empty. -/
theorem claim8_amended_resolver (envVar : Option String) (typed : String) :
    (∀ v, envVar = some v → v ≠ "" → resolveApiKey envVar typed = v) ∧
    ((envVar = none ∨ envVar = some "") →
      resolveApiKey envVar typed = strip typed) ∧
    (strip typed ≠ "" → resolveApiKey envVar typed ≠ "") := by
  refine ⟨?_, ?_, ?_⟩
  · intro v hv hne
    subst hv
    simp [resolveApiKey, hne]
  · rintro (rfl | rfl)
    · rfl
    · simp [resolveApiKey]
  · intro hne
    cases envVar with
    | none => simpa [resolveApiKey] using hne
    | some v =>
      by_cases hv : v = ""
      · subst hv
        simp [resolveApiKey] at hne ⊢
        exact hne
      · simp [resolveApiKey, hv]

/-- Witness for the amended C8 at concrete inputs. -/
theorem claim8_witness :
    resolveApiKey (some "KEY") "  x  " = "KEY" ∧
    resolveApiKey none "  x  " = strip "  x  " ∧
    resolveApiKey none "  x  " ≠ "" :=
  ⟨(claim8_amended_resolver (some "KEY") "  x  ").1 "KEY" rfl (by decide),
   (claim8_amended_resolver none "  x  ").2.1 (Or.inl rfl),
   (claim8_amended_resolver none "  x  ").2.2 (by decide)⟩

end AssemblePixabay
